import Mathlib

/-!
A verification development for the coverage extraction / aggregation /
comparison scripts of this repository (`analyze_coverage.py`,
`generate_coverage_comparison.py`, `compare-file-level-coverage.py`,
`compare-project-level-coverage.py`, `ablation.py`,
`generate_coverage_comparison_filter_cw_nonzero.py`).

Modelling conventions:
* Python floats are modelled as exact rationals (`ℚ`); Python's `round(x, 2)`
  and the `:.2f` format rounding are modelled as round-half-even on the exact
  value (`rhe`, `round2`).
* Python strings are modelled as `List Char` (`Str`); only ASCII case mapping
  is relevant for the data handled by the scripts.
* The string sentinel `'NaN'` used by `analyze_coverage.py` is the `CovVal.nan`
  constructor; a Python `None` is `Option.none`.
-/

/-- Python strings, modelled as lists of characters. -/
abbrev Str := List Char

/-- Round-half-even of a rational to an integer: the model of the rounding used
by Python's `round(x, n)` and by the `:.2f` format specifier (ties go to the
even neighbour). -/
def rhe (q : ℚ) : ℤ :=
  let f := ⌊q⌋
  let r := q - f
  if r < 1/2 then f
  else if 1/2 < r then f + 1
  else if f % 2 = 0 then f else f + 1

/-- Python `round(x, 2)` on the exact value. -/
def round2 (q : ℚ) : ℚ := rhe (q * 100) / 100

theorem rhe_eq_low (q : ℚ) (n : ℤ) (h1 : (n : ℚ) ≤ q) (h2 : q < (n : ℚ) + 1/2) :
    rhe q = n := by
  have hf : ⌊q⌋ = n := Int.floor_eq_iff.mpr ⟨h1, by linarith⟩
  unfold rhe
  rw [hf, if_pos (by linarith)]

theorem rhe_eq_high (q : ℚ) (n : ℤ) (h1 : (n : ℚ) + 1/2 < q) (h2 : q < (n : ℚ) + 1) :
    rhe q = n + 1 := by
  have hf : ⌊q⌋ = n := Int.floor_eq_iff.mpr ⟨by linarith, by linarith⟩
  unfold rhe
  rw [hf, if_neg (by linarith), if_pos (by linarith)]

theorem rhe_intCast (n : ℤ) : rhe (n : ℚ) = n := by
  have hf : ⌊(n : ℚ)⌋ = n := Int.floor_intCast n
  unfold rhe
  rw [hf, if_pos (by norm_num)]

theorem rhe_eq_tie (q : ℚ) (n : ℤ) (h : q = (n : ℚ) + 1/2) :
    rhe q = (if n % 2 = 0 then n else n + 1) := by
  have hf : ⌊q⌋ = n := Int.floor_eq_iff.mpr ⟨by rw [h]; linarith, by rw [h]; linarith⟩
  unfold rhe
  rw [hf, if_neg (by rw [h]; linarith),
    if_neg (by rw [h]; linarith)]

theorem rhe_neg (q : ℚ) : rhe (-q) = -(rhe q) := by
  have hf1 : ((⌊q⌋ : ℚ)) ≤ q := Int.floor_le q
  have hf2 : q < ⌊q⌋ + 1 := Int.lt_floor_add_one q
  by_cases hint : q = (⌊q⌋ : ℚ)
  · have h1 : rhe q = ⌊q⌋ := rhe_eq_low q ⌊q⌋ hf1 (by linarith [hint])
    have h2 : rhe (-q) = -⌊q⌋ := by
      rw [hint]
      have := rhe_intCast (-⌊q⌋)
      push_cast at this
      exact this
    rw [h1, h2]
  · have hlt : (⌊q⌋ : ℚ) < q := lt_of_le_of_ne hf1 (fun h => hint h.symm)
    set f := ⌊q⌋ with hfdef
    rcases lt_trichotomy (q - f) (1/2) with hr | hr | hr
    · -- fractional part below 1/2 : round down; -q rounds up to -f
      have h1 : rhe q = f := rhe_eq_low q f hf1 (by linarith)
      have h2 : rhe (-q) = -f := by
        have := rhe_eq_high (-q) (-f - 1) (by push_cast; linarith) (by push_cast; linarith)
        rw [this]; ring
      rw [h1, h2]
    · -- exact tie
      have hq : q = (f : ℚ) + 1/2 := by linarith
      have hq' : -q = ((-f - 1 : ℤ) : ℚ) + 1/2 := by push_cast; linarith
      have h1 := rhe_eq_tie q f hq
      have h2 := rhe_eq_tie (-q) (-f - 1) hq'
      rcases Int.emod_two_eq_zero_or_one f with hpar | hpar
      · have hpar' : (-f - 1) % 2 = 1 := by omega
        rw [h1, h2, hpar, hpar']
        norm_num
      · have hpar' : (-f - 1) % 2 = 0 := by omega
        rw [h1, h2, hpar, hpar']
        norm_num
        ring
    · -- fractional part above 1/2 : round up; -q rounds down to -f-1
      have h1 : rhe q = f + 1 := rhe_eq_high q f (by linarith) (by linarith)
      have h2 : rhe (-q) = -(f + 1) := by
        have := rhe_eq_low (-q) (-f - 1) (by push_cast; linarith) (by push_cast; linarith)
        rw [this]; omega
      rw [h1, h2]

theorem round2_neg (q : ℚ) : round2 (-q) = -(round2 q) := by
  unfold round2
  rw [show -q * 100 = -(q * 100) by ring, rhe_neg]
  push_cast
  ring

/-- A rational that is an exact multiple of `1/100` is a fixed point of
`round2`. -/
theorem round2_eq_self_of_mul_100 (q : ℚ) (m : ℤ) (h : q = (m : ℚ) / 100) :
    round2 q = q := by
  unfold round2
  rw [h, show (m : ℚ) / 100 * 100 = (m : ℚ) by ring, rhe_intCast]

theorem round2_zero : round2 0 = 0 := by
  simpa using round2_eq_self_of_mul_100 0 0 (by norm_num)

/-!
Data model of `analyze_coverage.py`.
-/

/-- A coverage value as handled by `analyze_coverage.py`: either the string
sentinel `'NaN'` or a (Python float) number. -/
inductive CovVal where
  | nan : CovVal
  | num : ℚ → CovVal
deriving DecidableEq

/-- Model of a JSON field value as seen by `to_coverage_value`
(`analyze_coverage.py` lines 82-97).  String inputs are partitioned by what
Python does with them there: the case-insensitive matches of `"nan"`/`"n/a"`,
the empty string, a string `float()` parses (carrying the parsed value), and
any other string; `jother` stands for any remaining JSON value on which
`float()` raises (an object, an array, ...). -/
inductive JVal where
  | jnull : JVal
  | jnum : ℚ → JVal
  | jstr_nan : JVal
  | jstr_empty : JVal
  | jstr_num : ℚ → JVal
  | jstr_bad : JVal
  | jother : JVal
deriving DecidableEq

/-- The two JSON payloads of one function folder, restricted to the fields the
extractor reads (`analyze_coverage.py` lines 110-124). -/
structure FnInput where
  ai_stmt : JVal
  ai_branch : JVal
  cov_stmt : JVal
  cov_branch : JVal
  totalStatements : JVal
  totalBranches : JVal
deriving DecidableEq

/-- The six coverage fields of one extracted record (the CSV columns of
`analyze_coverage.py`; names and folder metadata are tracked separately where
a claim needs them). -/
structure CovRec where
  initial_stmt : CovVal
  total_stmt : CovVal
  stmt_change : CovVal
  initial_branch : CovVal
  total_branch : CovVal
  branch_change : CovVal
deriving DecidableEq

/-- Model of `to_coverage_value` (`analyze_coverage.py` lines 82-97): `None` maps to
`0.0`, `"nan"`/`"n/a"` to the `'NaN'` sentinel, the empty and unparsable
strings to `0.0`, everything `float()` accepts to its value. -/
def to_coverage_value : JVal → CovVal
  | JVal.jnull => CovVal.num 0
  | JVal.jnum q => CovVal.num q
  | JVal.jstr_nan => CovVal.nan
  | JVal.jstr_empty => CovVal.num 0
  | JVal.jstr_num q => CovVal.num q
  | JVal.jstr_bad => CovVal.num 0
  | JVal.jother => CovVal.num 0

/-- Model of `round_if_numeric` (`analyze_coverage.py` lines 100-108): round a numeric
value to 2 decimals, pass the `'NaN'` sentinel through.  The Python branch
`if rounded == 0.0: return 0.0` replaces a float `-0.0` by `0.0`; over `ℚ`
that value is already `0`. -/
def round_if_numeric : CovVal → CovVal
  | CovVal.nan => CovVal.nan
  | CovVal.num q => CovVal.num (round2 q)

/-- Model of `calc_change` (`analyze_coverage.py` lines 127-132): `total - initial`,
snapped to `0` within `1e-6`.  When an operand is the string `'NaN'`, the
Python subtraction raises `TypeError`; the surrounding handler
(lines 157-158) then drops the whole record, which is modelled by `none`. -/
def calc_change : CovVal → CovVal → Option ℚ
  | CovVal.num t, CovVal.num i =>
      some (if |t - i| < 1/1000000 then 0 else t - i)
  | _, _ => none

/-- The per-record body of `analyze_test_logs` (`analyze_coverage.py` lines
110-156): coerce the four coverage fields, apply the zero-denominator
override, compute both changes (a `TypeError` in either drops the record),
and round every numeric value to 2 decimals. -/
def build_record (isc tsc ibc tbc : CovVal) : Option CovRec :=
  match calc_change tsc isc, calc_change tbc ibc with
  | some sc, some bc =>
      some { initial_stmt := round_if_numeric isc
             total_stmt := round_if_numeric tsc
             stmt_change := round_if_numeric (CovVal.num sc)
             initial_branch := round_if_numeric ibc
             total_branch := round_if_numeric tbc
             branch_change := round_if_numeric (CovVal.num bc) }
  | _, _ => none

/-- Value coercion plus the zero-denominator override of `analyze_test_logs`
(`analyze_coverage.py` lines 110-124) feeding `build_record`. -/
def extract_record (i : FnInput) : Option CovRec :=
  build_record
    (if i.totalStatements = JVal.jnum 0 then CovVal.num 0
     else to_coverage_value i.ai_stmt)
    (if i.totalStatements = JVal.jnum 0 then CovVal.num 0
     else to_coverage_value i.cov_stmt)
    (if i.totalBranches = JVal.jnum 0 then CovVal.num 0
     else to_coverage_value i.ai_branch)
    (if i.totalBranches = JVal.jnum 0 then CovVal.num 0
     else to_coverage_value i.cov_branch)

/-!
Aggregator: `calculate_averages` of `analyze_coverage.py` (lines 162-219).
-/

/-- The numeric content of a coverage value (`v != 'NaN' and isinstance(v,
(int, float))` in `avg_skip_nan`). -/
def cov_to_num : CovVal → Option ℚ
  | CovVal.nan => none
  | CovVal.num q => some q

/-- The non-`'NaN'` numeric values of a list of coverage values. -/
def numeric_values (values : List CovVal) : List ℚ := values.filterMap cov_to_num

/-- Model of `avg_skip_nan` (`analyze_coverage.py` lines 177-181): mean of the
non-`'NaN'` values, or the `'NaN'` sentinel if there is none. -/
def avg_skip_nan (values : List CovVal) : CovVal :=
  let nums := numeric_values values
  if nums.isEmpty then CovVal.nan
  else CovVal.num (nums.sum / nums.length)

/-- Model of `calculate_averages` (`analyze_coverage.py` lines 162-219): `None` on an
empty input, otherwise the field-wise `avg_skip_nan` mean rounded to 2
decimals. -/
def calculate_averages (results : List CovRec) : Option CovRec :=
  if results.isEmpty then none
  else some
    { initial_stmt := round_if_numeric (avg_skip_nan (results.map CovRec.initial_stmt))
      total_stmt := round_if_numeric (avg_skip_nan (results.map CovRec.total_stmt))
      stmt_change := round_if_numeric (avg_skip_nan (results.map CovRec.stmt_change))
      initial_branch := round_if_numeric (avg_skip_nan (results.map CovRec.initial_branch))
      total_branch := round_if_numeric (avg_skip_nan (results.map CovRec.total_branch))
      branch_change := round_if_numeric (avg_skip_nan (results.map CovRec.branch_change)) }

/-- The six field projections of a record, in CSV column order. -/
def field_projections : List (CovRec → CovVal) :=
  [CovRec.initial_stmt, CovRec.total_stmt, CovRec.stmt_change,
   CovRec.initial_branch, CovRec.total_branch, CovRec.branch_change]

theorem calc_change_some_iff (a b : CovVal) :
    (∃ q, calc_change a b = some q) ↔ (∃ x, a = CovVal.num x) ∧ (∃ y, b = CovVal.num y) := by
  cases a <;> cases b <;> simp [calc_change]

/-- Every record that survives extraction has six numeric (non-`'NaN'`)
fields: a `'NaN'` operand in either change computation raises and drops the
record, and the zero-denominator override writes numbers. -/
theorem extract_record_fields_num (i : FnInput) (r : CovRec)
    (h : extract_record i = some r) (p : CovRec → CovVal) (hp : p ∈ field_projections) :
    ∃ q, p r = CovVal.num q := by
  unfold extract_record at h
  revert h
  generalize (if i.totalStatements = JVal.jnum 0 then CovVal.num 0
     else to_coverage_value i.ai_stmt) = isc
  generalize (if i.totalStatements = JVal.jnum 0 then CovVal.num 0
     else to_coverage_value i.cov_stmt) = tsc
  generalize (if i.totalBranches = JVal.jnum 0 then CovVal.num 0
     else to_coverage_value i.ai_branch) = ibc
  generalize (if i.totalBranches = JVal.jnum 0 then CovVal.num 0
     else to_coverage_value i.cov_branch) = tbc
  intro h
  unfold build_record at h
  rcases hsc : calc_change tsc isc with _ | sc <;> rw [hsc] at h
  · exact absurd h (by simp)
  rcases hbc : calc_change tbc ibc with _ | bc <;> rw [hbc] at h
  · exact absurd h (by simp)
  obtain ⟨⟨ts, rfl⟩, ⟨is', rfl⟩⟩ := (calc_change_some_iff tsc isc).mp ⟨sc, hsc⟩
  obtain ⟨⟨tb, rfl⟩, ⟨ib, rfl⟩⟩ := (calc_change_some_iff tbc ibc).mp ⟨bc, hbc⟩
  simp only [Option.some.injEq] at h
  simp only [field_projections, List.mem_cons, List.not_mem_nil, or_false] at hp
  rcases hp with rfl | rfl | rfl | rfl | rfl | rfl <;>
    rw [← h] <;> exact ⟨_, rfl⟩

theorem calculate_averages_field (results : List CovRec) (a : CovRec)
    (h : calculate_averages results = some a) (p : CovRec → CovVal)
    (hp : p ∈ field_projections) :
    p a = round_if_numeric (avg_skip_nan (results.map p)) := by
  unfold calculate_averages at h
  by_cases he : results.isEmpty
  · rw [if_pos he] at h; exact absurd h (by simp)
  · rw [if_neg he] at h
    simp only [Option.some.injEq] at h
    simp only [field_projections, List.mem_cons, List.not_mem_nil, or_false] at hp
    rcases hp with rfl | rfl | rfl | rfl | rfl | rfl <;> rw [← h]

/-!
Pairwise function-level comparator: `generate_coverage_comparison.py`.
-/

/-- Model of `is_zero_or_nan` (`generate_coverage_comparison.py` lines 80-85): true for
a missing value (`None`, or a float NaN — which `parse_float` has already
turned into `None`) and for a value within `TOL = 1e-9` of zero. -/
def is_zero_or_nan (v : Option ℚ) : Bool :=
  match v with
  | none => true
  | some q => decide (|q| < 1/1000000000)

/-- Delta computation of `main` (`generate_coverage_comparison.py` lines
117-133): second variant minus first when both are present, rounded to 2
decimals and snapped to `0` within `1e-6`; `None` otherwise. -/
def delta_of (llm cw : Option ℚ) : Option ℚ :=
  match llm, cw with
  | some l, some c =>
      some (if |round2 (l - c)| < 1/1000000 then 0 else round2 (l - c))
  | _, _ => none

/-- One emitted comparison row of the function-level report (the CSV columns
of `generate_coverage_comparison.py` lines 97-105 minus the name). -/
structure CmpRow where
  stmt_cw : Option ℚ
  stmt_llm : Option ℚ
  stmt_delta : Option ℚ
  branch_cw : Option ℚ
  branch_llm : Option ℚ
  branch_delta : Option ℚ
deriving DecidableEq

/-- The per-key body of `main` (`generate_coverage_comparison.py` lines
111-153): compute both deltas and drop the row when both are zero-or-missing
(line 136), otherwise emit it. -/
def make_row (cw_stmt llm_stmt cw_branch llm_branch : Option ℚ) : Option CmpRow :=
  let sd := delta_of llm_stmt cw_stmt
  let bd := delta_of llm_branch cw_branch
  if is_zero_or_nan sd && is_zero_or_nan bd then none
  else some { stmt_cw := cw_stmt, stmt_llm := llm_stmt, stmt_delta := sd
              branch_cw := cw_branch, branch_llm := llm_branch, branch_delta := bd }

theorem delta_of_swap (a b : Option ℚ) :
    delta_of a b = (delta_of b a).map (fun q => -q) := by
  rcases a with _ | x <;> rcases b with _ | y
  · rfl
  · rfl
  · rfl
  · simp only [delta_of]
    rw [show x - y = -(y - x) by ring, round2_neg, abs_neg]
    simp only [Option.map_some']
    split_ifs with h
    · simp
    · rfl

theorem is_zero_or_nan_neg (v : Option ℚ) :
    is_zero_or_nan (v.map (fun q => -q)) = is_zero_or_nan v := by
  rcases v with _ | q <;> simp [is_zero_or_nan]

/-!
Numeric rendering: Python's `f"{v:.2f}"` and the trimming in `fmt`
(`generate_coverage_comparison.py` lines 58-68), and the `fmt_total_stmt` /
`fmt_total_branch` cell renderers of the file-level and project-level
comparators (`compare-file-level-coverage.py` lines 180-190,
`compare-project-level-coverage.py` lines 146-156).
-/

/-- A decimal digit as a character. -/
def digit_char (d : ℕ) : Char :=
  match d with
  | 0 => '0' | 1 => '1' | 2 => '2' | 3 => '3' | 4 => '4'
  | 5 => '5' | 6 => '6' | 7 => '7' | 8 => '8' | 9 => '9'
  | _ => '0'

/-- Decimal digits of a natural number, most significant first. -/
def nat_chars (n : ℕ) : List Char :=
  if _h : n < 10 then [digit_char n]
  else nat_chars (n / 10) ++ [digit_char (n % 10)]
termination_by n
decreasing_by omega

/-- The characters that can appear in a rendered number. -/
def num_chars : List Char := ['-', '.', '0', '1', '2', '3', '4', '5', '6', '7', '8', '9']

theorem digit_char_mem (d : ℕ) : digit_char d ∈ num_chars := by
  rcases d with _ | _ | _ | _ | _ | _ | _ | _ | _ | _ | d <;> simp [digit_char, num_chars]

theorem nat_chars_mem (n : ℕ) : ∀ c ∈ nat_chars n, c ∈ num_chars := by
  induction n using Nat.strong_induction_on with
  | _ n ih =>
    intro c hc
    by_cases h : n < 10
    · rw [nat_chars, dif_pos h] at hc
      simp only [List.mem_singleton] at hc
      exact hc ▸ digit_char_mem n
    · rw [nat_chars, dif_neg h] at hc
      rcases List.mem_append.mp hc with hc | hc
      · exact ih (n / 10) (by omega) c hc
      · simp only [List.mem_singleton] at hc
        exact hc ▸ digit_char_mem (n % 10)

/-- Python `f"{v:.2f}"`: round-half-even at 2 decimals, a minus sign for
negative results, at least one integer digit, a dot, two fraction digits.
(The float artifact `"-0.00"` for a negative value rounding to zero has no
counterpart over `ℚ`, where such a value is exactly `0`.) -/
def fmt_fixed2 (q : ℚ) : Str :=
  let n : ℤ := rhe (q * 100)
  let a : ℕ := n.natAbs
  (if n < 0 then ['-'] else []) ++ nat_chars (a / 100)
    ++ ['.', digit_char (a % 100 / 10), digit_char (a % 10)]

/-- Python `s.endswith(suffix)`. -/
def ends_with (s suffix : Str) : Bool := s.reverse.take suffix.length == suffix.reverse

/-- Python `s.rstrip(c)` for a single strip character. -/
def rstrip (c : Char) (s : Str) : Str := (s.reverse.dropWhile (fun d => d == c)).reverse

/-- Model of `fmt` (`generate_coverage_comparison.py` lines 58-68): missing values
render as the empty cell; numbers are rendered at 2 decimals and trailing
zeros (and a trailing dot) are stripped. -/
def fmt : Option ℚ → Str
  | none => []
  | some v =>
    if ends_with (fmt_fixed2 v) ['.', '0', '0'] then
      (fmt_fixed2 v).dropLast.dropLast.dropLast
    else if ends_with (fmt_fixed2 v) ['0'] then rstrip '.' (rstrip '0' (fmt_fixed2 v))
    else fmt_fixed2 v

theorem fmt_fixed2_mem (q : ℚ) : ∀ c ∈ fmt_fixed2 q, c ∈ num_chars := by
  intro c hc
  unfold fmt_fixed2 at hc
  simp only [List.mem_append, List.mem_cons, List.mem_singleton,
    List.not_mem_nil, or_false] at hc
  rcases hc with (hc | hc) | hc | hc | hc
  · split at hc
    · simp only [List.mem_singleton] at hc
      subst hc; simp [num_chars]
    · simp at hc
  · exact nat_chars_mem _ c hc
  · subst hc; simp [num_chars]
  · subst hc; exact digit_char_mem _
  · subst hc; exact digit_char_mem _

theorem rstrip_subset (c : Char) (s : Str) : ∀ a ∈ rstrip c s, a ∈ s := by
  intro a ha
  unfold rstrip at ha
  rw [List.mem_reverse] at ha
  have hs := (List.dropWhile_sublist _).subset ha
  rwa [List.mem_reverse] at hs

theorem fmt_mem (v : Option ℚ) : ∀ c ∈ fmt v, c ∈ num_chars := by
  intro c hc
  rcases v with _ | q
  · simp [fmt] at hc
  · simp only [fmt] at hc
    split at hc
    · exact fmt_fixed2_mem q c
        ((List.dropLast_sublist _).subset ((List.dropLast_sublist _).subset
          ((List.dropLast_sublist _).subset hc)))
    · split at hc
      · exact fmt_fixed2_mem q c (rstrip_subset _ _ c (rstrip_subset _ _ c hc))
      · exact fmt_fixed2_mem q c hc

/-- Model of `fmt_total_stmt` (`compare-file-level-coverage.py` lines 180-184 and
`compare-project-level-coverage.py` lines 146-150): an absent average row
renders as the empty cell, the string sentinel `'NaN'` is returned as-is,
and a float is rendered at fixed 2 decimals (no trimming). -/
def fmt_total_stmt (avg_row : Option CovRec) : Str :=
  match avg_row with
  | none => []
  | some r =>
    match r.total_stmt with
    | CovVal.nan => ['N', 'a', 'N']
    | CovVal.num q => fmt_fixed2 q

/-- Model of `fmt_total_branch` (`compare-file-level-coverage.py` lines 186-190 and
`compare-project-level-coverage.py` lines 152-156). -/
def fmt_total_branch (avg_row : Option CovRec) : Str :=
  match avg_row with
  | none => []
  | some r =>
    match r.total_branch with
    | CovVal.nan => ['N', 'a', 'N']
    | CovVal.num q => fmt_fixed2 q

theorem avg_skip_nan_num (values : List CovVal)
    (hv : ∀ v ∈ values, ∃ q, v = CovVal.num q) (hne : values ≠ []) :
    ∃ q, avg_skip_nan values = CovVal.num q := by
  unfold avg_skip_nan
  rcases values with _ | ⟨v, rest⟩
  · exact absurd rfl hne
  · obtain ⟨q, rfl⟩ := hv v (List.mem_cons_self v rest)
    simp [numeric_values, cov_to_num]

/-!
String ordering.  Python's `sorted` on strings compares code points
lexicographically; sorting with `key=str.lower` compares the lowercased
strings.  `lexLe` is that lexicographic comparison on `Str`.
-/

def lexLe : Str → Str → Bool
  | [], _ => true
  | _ :: _, [] => false
  | a :: as, b :: bs => if a < b then true else if b < a then false else lexLe as bs

theorem lexLe_total (a b : Str) : lexLe a b = true ∨ lexLe b a = true := by
  induction a generalizing b with
  | nil => left; rfl
  | cons x xs ih =>
    cases b with
    | nil => right; rfl
    | cons y ys =>
      rcases lt_trichotomy x y with h | h | h
      · left; simp [lexLe, h]
      · subst h
        rcases ih ys with h2 | h2
        · left; simp [lexLe, h2]
        · right; simp [lexLe, h2]
      · right; simp [lexLe, h]

theorem lexLe_trans (a b c : Str) (h1 : lexLe a b = true) (h2 : lexLe b c = true) :
    lexLe a c = true := by
  induction a generalizing b c with
  | nil => rfl
  | cons x xs ih =>
    cases b with
    | nil => simp [lexLe] at h1
    | cons y ys =>
      cases c with
      | nil => simp [lexLe] at h2
      | cons z zs =>
        simp only [lexLe] at h1 h2 ⊢
        by_cases hxy : x < y
        · by_cases hyz : y < z
          · rw [if_pos (lt_trans hxy hyz)]
          · by_cases hzy : z < y
            · simp [if_neg hyz, if_pos hzy] at h2
            · have : y = z := le_antisymm (not_lt.mp hzy) (not_lt.mp hyz)
              subst this
              rw [if_pos hxy]
        · by_cases hyx : y < x
          · simp [if_neg hxy, if_pos hyx] at h1
          · have hxy' : x = y := le_antisymm (not_lt.mp hyx) (not_lt.mp hxy)
            subst hxy'
            rw [if_neg hxy, if_neg hyx] at h1
            by_cases hyz : x < z
            · rw [if_pos hyz]
            · by_cases hzy : z < x
              · simp [if_neg hyz, if_pos hzy] at h2
              · rw [if_neg hyz, if_neg hzy] at h2 ⊢
                exact ih ys zs h1 h2

theorem lexLe_antisymm (a b : Str) (h1 : lexLe a b = true) (h2 : lexLe b a = true) :
    a = b := by
  induction a generalizing b with
  | nil =>
    cases b with
    | nil => rfl
    | cons y ys => simp [lexLe] at h2
  | cons x xs ih =>
    cases b with
    | nil => simp [lexLe] at h1
    | cons y ys =>
      simp only [lexLe] at h1 h2
      by_cases hxy : x < y
      · simp [if_neg (lt_asymm hxy), if_pos hxy] at h2
      · by_cases hyx : y < x
        · simp [if_neg hxy, if_pos hyx] at h1
        · have hxy' : x = y := le_antisymm (not_lt.mp hyx) (not_lt.mp hxy)
          subst hxy'
          rw [if_neg hxy, if_neg hyx] at h1 h2
          rw [ih ys h1 h2]

/-- Python `str.lower()` (the data here is ASCII). -/
def lower : Str → Str := List.map Char.toLower

/-- Case-sensitive (code point) string order: what plain `sorted(...)` uses. -/
def str_le (a b : Str) : Prop := lexLe a b = true

/-- Case-insensitive string order: what `sorted(..., key=lambda s: s.lower())`
uses. -/
def ci_le (a b : Str) : Prop := lexLe (lower a) (lower b) = true

/-- Case-insensitive order on `(project, file)` pairs: what
`sorted(keys, key=lambda x: (x[0].lower(), x[1].lower()))` uses. -/
def ci_pair_le (a b : Str × Str) : Prop :=
  (lower a.1 = lower b.1 ∧ lexLe (lower a.2) (lower b.2) = true) ∨
  (lower a.1 ≠ lower b.1 ∧ lexLe (lower a.1) (lower b.1) = true)

instance : DecidableRel str_le := fun a b => instDecidableEqBool (lexLe a b) true

instance : DecidableRel ci_le := fun a b => instDecidableEqBool (lexLe (lower a) (lower b)) true

instance : DecidableRel ci_pair_le := fun a b => by unfold ci_pair_le; infer_instance

instance : IsTotal Str str_le := ⟨lexLe_total⟩

instance : IsTrans Str str_le := ⟨lexLe_trans⟩

instance : IsTotal Str ci_le := ⟨fun a b => lexLe_total (lower a) (lower b)⟩

instance : IsTrans Str ci_le := ⟨fun a b c => lexLe_trans (lower a) (lower b) (lower c)⟩

instance : IsTotal (Str × Str) ci_pair_le := by
  constructor
  intro a b
  by_cases h : lower a.1 = lower b.1
  · rcases lexLe_total (lower a.2) (lower b.2) with h2 | h2
    · exact Or.inl (Or.inl ⟨h, h2⟩)
    · exact Or.inr (Or.inl ⟨h.symm, h2⟩)
  · rcases lexLe_total (lower a.1) (lower b.1) with h1 | h1
    · exact Or.inl (Or.inr ⟨h, h1⟩)
    · exact Or.inr (Or.inr ⟨fun he => h he.symm, h1⟩)

instance : IsTrans (Str × Str) ci_pair_le := by
  constructor
  intro a b c hab hbc
  rcases hab with ⟨e1, l2⟩ | ⟨n1, l1⟩
  · rcases hbc with ⟨e1', l2'⟩ | ⟨n1', l1'⟩
    · exact Or.inl ⟨e1.trans e1', lexLe_trans _ _ _ l2 l2'⟩
    · exact Or.inr ⟨e1 ▸ n1', e1 ▸ l1'⟩
  · rcases hbc with ⟨e1', l2'⟩ | ⟨n1', l1'⟩
    · exact Or.inr ⟨fun he => n1 (he.trans e1'.symm), e1' ▸ l1⟩
    · refine Or.inr ⟨fun he => ?_, lexLe_trans _ _ _ l1 l1'⟩
      exact n1' (lexLe_antisymm _ _ l1' (he ▸ l1))

/-- Line 92 of `generate_coverage_comparison.py` (and line 93 of the
`_filter_cw_nonzero` variant): `sorted(set(list(cw.keys()) + list(llm.keys())))`
— the deduplicated union sorted by code point. -/
def sorted_union (cw llm : List Str) : List Str :=
  List.insertionSort str_le ((cw ++ llm).dedup)

/-- Line 160 of `compare-project-level-coverage.py`:
`sorted(projects_union, key=lambda s: s.lower())`. -/
def ci_sorted_union (a b : List Str) : List Str :=
  List.insertionSort ci_le ((a ++ b).dedup)

/-- Line 195 of `compare-file-level-coverage.py`:
`sorted(keys, key=lambda x: (x[0].lower(), x[1].lower()))` over the union of
`(project, file)` keys (line 168). -/
def ci_pair_sorted_union (a b : List (Str × Str)) : List (Str × Str) :=
  List.insertionSort ci_pair_le ((a ++ b).dedup)

/-!
CSV reading of the function-level comparators: `read_all_coverage_in_dir`
(`generate_coverage_comparison.py` lines 32-55, identical in the
`_filter_cw_nonzero` variant lines 32-56).  A directory is a list of
(filename, rows) pairs; rows carry the raw name cell and the already
`parse_float`-ed coverage cells.
-/

/-- One data row of a per-project CSV as the comparator sees it: the raw
`Function Name` cell and the `parse_float` results of the two total-coverage
cells. -/
structure CsvRow where
  name : Str
  stmt : Option ℚ
  branch : Option ℚ
deriving DecidableEq

/-- Python `s.strip()` (default whitespace). -/
def strip (s : Str) : Str :=
  ((s.dropWhile Char.isWhitespace).reverse.dropWhile Char.isWhitespace).reverse

/-- Python `s.upper()` (the data here is ASCII). -/
def upper : Str → Str := List.map Char.toUpper

/-- Python `s.startswith(pat)`. -/
def starts_with : Str → Str → Bool
  | _, [] => true
  | [], _ :: _ => false
  | a :: as, b :: bs => a == b && starts_with as bs

/-- The `func.upper().startswith("AVERAGE")` skip of line 48. -/
def is_average_name (k : Str) : Bool :=
  starts_with (upper k) ['A', 'V', 'E', 'R', 'A', 'G', 'E']

/-- A Python `dict` as an association list with unique keys in insertion
order: assigning an existing key updates it in place, a new key is appended. -/
def dict_insert : List (Str × (Option ℚ × Option ℚ)) → Str → (Option ℚ × Option ℚ) →
    List (Str × (Option ℚ × Option ℚ))
  | [], k, v => [(k, v)]
  | p :: rest, k, v => if p.1 = k then (k, v) :: rest else p :: dict_insert rest k v

def dict_lookup : List (Str × (Option ℚ × Option ℚ)) → Str → Option (Option ℚ × Option ℚ)
  | [], _ => none
  | p :: rest, k => if p.1 = k then some p.2 else dict_lookup rest k

/-- The per-row body of `read_all_coverage_in_dir` (lines 44-52): skip rows
with a blank stripped name and `AVERAGE` summary rows, otherwise assign
`mapping[func] = {"stmt": ..., "branch": ...}`, overwriting any earlier
occurrence of the same function name. -/
def read_row (m : List (Str × (Option ℚ × Option ℚ))) (r : CsvRow) :
    List (Str × (Option ℚ × Option ℚ)) :=
  if strip r.name = [] then m
  else if is_average_name (strip r.name) then m
  else dict_insert m (strip r.name) (r.stmt, r.branch)

/-- Filename order on (filename, rows) pairs: `sorted(dir_path.glob("*.csv"))`
of line 36. -/
def file_le (f g : Str × List CsvRow) : Prop := str_le f.1 g.1

instance : DecidableRel file_le := fun f g => instDecidableEqBool (lexLe f.1 g.1) true

/-- The row stream of a directory: files in sorted filename order, each file's
rows in file order. -/
def dir_stream (files : List (Str × List CsvRow)) : List CsvRow :=
  (List.insertionSort file_le files).flatMap (fun f => f.2)

/-- Model of `read_all_coverage_in_dir` (lines 32-55). -/
def read_all_coverage_in_dir (files : List (Str × List CsvRow)) :
    List (Str × (Option ℚ × Option ℚ)) :=
  (dir_stream files).foldl read_row []

/-- The rows of the stream that bind the key `k`. -/
def row_matches (k : Str) (r : CsvRow) : Bool :=
  strip r.name == k && !(strip r.name == ([] : Str)) && !is_average_name (strip r.name)

theorem dict_lookup_insert_self (m : List (Str × (Option ℚ × Option ℚ))) (k : Str)
    (v : Option ℚ × Option ℚ) : dict_lookup (dict_insert m k v) k = some v := by
  induction m with
  | nil => simp [dict_insert, dict_lookup]
  | cons p rest ih =>
    by_cases h : p.1 = k
    · simp [dict_insert, if_pos h, dict_lookup]
    · simp only [dict_insert, if_neg h, dict_lookup, if_neg h, ih]

theorem dict_lookup_insert_ne (m : List (Str × (Option ℚ × Option ℚ))) (k k' : Str)
    (v : Option ℚ × Option ℚ) (hk : k' ≠ k) :
    dict_lookup (dict_insert m k v) k' = dict_lookup m k' := by
  induction m with
  | nil => simp [dict_insert, dict_lookup, Ne.symm hk]
  | cons p rest ih =>
    by_cases h : p.1 = k
    · simp only [dict_insert, if_pos h, dict_lookup]
      rw [h, if_neg (Ne.symm hk), if_neg (Ne.symm hk)]
    · simp only [dict_insert, if_neg h, dict_lookup]
      by_cases h' : p.1 = k'
      · rw [if_pos h', if_pos h']
      · rw [if_neg h', if_neg h', ih]

theorem foldl_read_row (rows : List CsvRow) (m : List (Str × (Option ℚ × Option ℚ)))
    (k : Str) :
    dict_lookup (rows.foldl read_row m) k =
      (match rows.reverse.find? (row_matches k) with
       | some r => some (r.stmt, r.branch)
       | none => dict_lookup m k) := by
  induction rows generalizing m with
  | nil => rfl
  | cons r rest ih =>
    rw [List.foldl_cons, ih, List.reverse_cons, List.find?_append]
    rcases hfind : rest.reverse.find? (row_matches k) with _ | r'
    · by_cases h1 : strip r.name = []
      · have hm : row_matches k r = false := by simp [row_matches, h1]
        simp [List.find?, hm, read_row, h1, Option.or]
      · by_cases h2 : is_average_name (strip r.name) = true
        · have hm : row_matches k r = false := by simp [row_matches, h2]
          simp [List.find?, hm, read_row, h1, h2, Option.or]
        · by_cases h3 : strip r.name = k
          · subst h3
            have hm : row_matches (strip r.name) r = true := by
              simp [row_matches, h1, h2]
            simp [List.find?, hm, read_row, h1, h2, dict_lookup_insert_self, Option.or]
          · have hm : row_matches k r = false := by simp [row_matches, h3]
            simp [List.find?, hm, read_row, h1, h2, Option.or,
              dict_lookup_insert_ne _ _ _ _ (Ne.symm h3)]
    · simp [Option.or]

/-!
Ablation calculator: `ablation.py`.
-/

/-- Python truthiness of an optional coverage value as used by
`if (llm_stmt and llm_init_stmt)` in `ablation.py` line 90: `None` and `0.0`
are falsy; any nonzero number — and the nonempty string `'NaN'` — are truthy. -/
def py_truthy : Option CovVal → Bool
  | none => false
  | some CovVal.nan => true
  | some (CovVal.num q) => !(q == 0)

/-- Model of `average_across_projects` (`ablation.py` lines 59-66): `None` when no
project has the file, otherwise `calculate_averages` over the per-project
average rows. -/
def average_across_projects (rows : List CovRec) : Option CovRec :=
  if rows.isEmpty then none else calculate_averages rows

/-- The `W/o iteration` cell (`ablation.py` lines 90-91 plus the `round2` of
line 102): `- (total - initial)` when both operands are truthy, `None`
otherwise.  The outer `none` models the uncaught `TypeError` raised if a
truthy operand were the string sentinel; the inner `Option ℚ` is the cell
value (`none` = empty). -/
def wo_iter_cell (total initial : Option CovVal) : Option (Option ℚ) :=
  if py_truthy total && py_truthy initial then
    match total, initial with
    | some (CovVal.num t), some (CovVal.num i) => some (some (round2 (-(t - i))))
    | _, _ => none
  else some none

/-!
Aggregation helper lemmas.
-/

theorem numeric_values_map_num (qs : List ℚ) :
    numeric_values (qs.map CovVal.num) = qs := by
  induction qs with
  | nil => rfl
  | cons q rest ih => simp [numeric_values, cov_to_num] at ih ⊢; exact ih

theorem all_num_decompose (values : List CovVal)
    (h : ∀ v ∈ values, ∃ q, v = CovVal.num q) :
    values = (numeric_values values).map CovVal.num := by
  induction values with
  | nil => rfl
  | cons v rest ih =>
    obtain ⟨q, rfl⟩ := h v (List.mem_cons_self v rest)
    have := ih (fun w hw => h w (List.mem_cons_of_mem _ hw))
    simp only [numeric_values, List.filterMap_cons, cov_to_num, List.map_cons]
    exact congrArg _ this

theorem mean_append_eq (xs ys : List ℚ) (hlen : xs.length = ys.length) :
    (xs ++ ys).sum / (((xs ++ ys).length : ℕ) : ℚ) =
      (xs.sum / (xs.length : ℚ) + ys.sum / (ys.length : ℚ)) / 2 := by
  rw [List.sum_append, List.length_append, ← hlen]
  push_cast
  rw [div_add_div_same, div_div]
  ring_nf

/-- Mean of a list of rationals (statement-side abbreviation). -/
def mean_of (l : List ℚ) : ℚ := l.sum / (l.length : ℚ)

theorem calculate_averages_eq_none_iff (rs : List CovRec) :
    calculate_averages rs = none ↔ rs = [] := by
  unfold calculate_averages
  by_cases he : rs.isEmpty
  · rw [if_pos he]
    simp [List.isEmpty_iff.mp he]
  · rw [if_neg he]
    constructor
    · intro h
      exact absurd h (by simp)
    · intro h
      exact (he (List.isEmpty_iff.mpr h)).elim

theorem mem_sorted_union (cw llm : List Str) (k : Str) :
    k ∈ sorted_union cw llm ↔ (k ∈ cw ∨ k ∈ llm) := by
  unfold sorted_union
  rw [(List.perm_insertionSort _ _).mem_iff, List.mem_dedup, List.mem_append]

theorem sorted_union_nodup (cw llm : List Str) : (sorted_union cw llm).Nodup :=
  (List.perm_insertionSort _ _).nodup_iff.mpr (List.nodup_dedup _)

theorem calc_change_zero : calc_change (CovVal.num 0) (CovVal.num 0) = some 0 := by
  simp only [calc_change]
  norm_num

/-!
Claim theorems.
-/

/-- C5: the standard function-level comparison report drops a row exactly when
both its rounded deltas are zero-or-missing (`Missing` / within `1e-9` of
zero); in particular a row with `Δstatement = 0` and `Δbranch = Missing` is
dropped, while a row with `Δstatement = 0.01` is retained. -/
theorem C5_standard_filter_drops_row_iff :
    (∀ cw_stmt llm_stmt cw_branch llm_branch : Option ℚ,
      make_row cw_stmt llm_stmt cw_branch llm_branch = none ↔
        (is_zero_or_nan (delta_of llm_stmt cw_stmt) = true ∧
         is_zero_or_nan (delta_of llm_branch cw_branch) = true)) ∧
    make_row (some 10) (some 10) (some 5) none = none ∧
    make_row (some 10) (some (1001/100)) none none ≠ none := by
  refine ⟨?_, ?_, ?_⟩
  · intro a b c d
    simp only [make_row]
    constructor
    · intro h
      rw [← Bool.and_eq_true]
      by_contra hx
      rw [Bool.eq_false_iff.mpr hx] at h
      simp at h
    · intro h
      rw [← Bool.and_eq_true] at h
      rw [h]
      simp
  · have h1 : delta_of (some 10) (some 10) = some 0 := by
      simp only [delta_of]
      rw [show (10 : ℚ) - 10 = 0 by norm_num, round2_zero]
      norm_num
    have h2 : is_zero_or_nan (some (0 : ℚ)) = true := by
      simp only [is_zero_or_nan, abs_zero, decide_eq_true_eq]
      norm_num
    have h3 : is_zero_or_nan (delta_of none (some 5)) = true := rfl
    simp [make_row, h1, h2, h3]
  · have h1 : delta_of (some (1001/100)) (some 10) = some (1/100) := by
      simp only [delta_of]
      rw [show (1001 / 100 : ℚ) - 10 = 1/100 by norm_num,
        round2_eq_self_of_mul_100 (1/100) 1 (by norm_num)]
      rw [if_neg (by rw [abs_of_pos (by norm_num : (0:ℚ) < 1/100)]; norm_num)]
    have h2 : is_zero_or_nan (some ((1 : ℚ)/100)) = false := by
      simp only [is_zero_or_nan, decide_eq_false_iff_not]
      rw [abs_of_pos (by norm_num : (0:ℚ) < 1/100)]
      norm_num
    have h3 : (is_zero_or_nan (some ((1 : ℚ)/100)) &&
        is_zero_or_nan (delta_of none none)) = false := by
      rw [h2, Bool.false_and]
    simp only [make_row, h1, h3]
    simp

/-- C8: swapping the two compared variants keeps the same retained keys and
negates both deltas of every retained function-level comparison row, and the
iterated key set (the sorted union) is the same in both directions. -/
theorem C8_swap_variants_negates_deltas :
    (∀ a_stmt b_stmt a_branch b_branch : Option ℚ,
      (make_row a_stmt b_stmt a_branch b_branch = none ↔
        make_row b_stmt a_stmt b_branch a_branch = none) ∧
      (∀ r s : CmpRow, make_row a_stmt b_stmt a_branch b_branch = some r →
        make_row b_stmt a_stmt b_branch a_branch = some s →
        s.stmt_delta = r.stmt_delta.map (fun q => -q) ∧
        s.branch_delta = r.branch_delta.map (fun q => -q))) ∧
    (∀ (cw llm : List Str) (k : Str), k ∈ sorted_union cw llm ↔ k ∈ sorted_union llm cw) := by
  constructor
  · intro aS bS aB bB
    constructor
    · simp only [make_row, delta_of_swap aS bS, delta_of_swap aB bB, is_zero_or_nan_neg]
      split_ifs <;> simp
    · intro r s hr hs
      simp only [make_row, delta_of_swap aS bS, delta_of_swap aB bB, is_zero_or_nan_neg]
        at hr hs
      rcases hcond : (is_zero_or_nan (delta_of bS aS) && is_zero_or_nan (delta_of bB aB))
        with _ | _
      · rw [hcond] at hr hs
        simp only [Bool.false_eq_true, if_false, Option.some.injEq] at hr hs
        rw [← hr, ← hs]
        exact ⟨rfl, rfl⟩
      · rw [hcond] at hr
        simp at hr
  · intro cw llm k
    rw [mem_sorted_union, mem_sorted_union, or_comm]

theorem C5_standard_filter_witness :
    make_row (some 10) (some 10) (some 5) none = none :=
  C5_standard_filter_drops_row_iff.2.1

theorem delta_of_30_10 : delta_of (some (30 : ℚ)) (some 10) = some 20 := by
  simp only [delta_of]
  rw [show (30:ℚ) - 10 = 20 by norm_num, round2_eq_self_of_mul_100 20 2000 (by norm_num)]
  rw [if_neg (by rw [abs_of_pos (by norm_num : (0:ℚ) < 20)]; norm_num)]

theorem delta_of_10_30 : delta_of (some (10 : ℚ)) (some 30) = some (-20) := by
  simp only [delta_of]
  rw [show (10:ℚ) - 30 = -20 by norm_num,
    show round2 (-20) = -20 by
      rw [round2_eq_self_of_mul_100 (-20) (-2000) (by norm_num)]]
  rw [if_neg (by rw [abs_neg, abs_of_pos (by norm_num : (0:ℚ) < 20)]; norm_num)]

theorem is_zero_or_nan_20 : is_zero_or_nan (some (20 : ℚ)) = false := by
  simp only [is_zero_or_nan, decide_eq_false_iff_not]
  rw [abs_of_pos (by norm_num : (0:ℚ) < 20)]
  norm_num

theorem is_zero_or_nan_neg20 : is_zero_or_nan (some (-20 : ℚ)) = false := by
  simp only [is_zero_or_nan, decide_eq_false_iff_not]
  rw [abs_neg, abs_of_pos (by norm_num : (0:ℚ) < 20)]
  norm_num

theorem make_row_10_30 :
    make_row (some 10) (some 30) none none =
      some ⟨some 10, some 30, some 20, none, none, none⟩ := by
  simp only [make_row, delta_of_30_10]
  have hcond : (is_zero_or_nan (some (20:ℚ)) && is_zero_or_nan (delta_of none none)) = false := by
    rw [is_zero_or_nan_20, Bool.false_and]
  rw [hcond]
  simp [delta_of]

theorem make_row_30_10 :
    make_row (some 30) (some 10) none none =
      some ⟨some 30, some 10, some (-20), none, none, none⟩ := by
  simp only [make_row, delta_of_10_30]
  have hcond : (is_zero_or_nan (some (-20:ℚ)) && is_zero_or_nan (delta_of none none)) = false := by
    rw [is_zero_or_nan_neg20, Bool.false_and]
  rw [hcond]
  simp [delta_of]

theorem C8_swap_variants_witness :
    (⟨some 30, some 10, some (-20), none, none, none⟩ : CmpRow).stmt_delta =
      Option.map (fun q => -q)
        (⟨some 10, some 30, some 20, none, none, none⟩ : CmpRow).stmt_delta :=
  (((C8_swap_variants_negates_deltas).1 (some 10) (some 30) none none).2
    ⟨some 10, some 30, some 20, none, none, none⟩
    ⟨some 30, some 10, some (-20), none, none, none⟩
    make_row_10_30 make_row_30_10).1

/-- C9: a reported total-statement count of `0` forces both statement coverage
values of the extracted record to exactly `0` (not `Missing`), and a reported
total-branch count of `0` forces both branch coverage values to `0`. -/
theorem C9_zero_denominator_forces_zero :
    ∀ (i : FnInput) (r : CovRec),
      (i.totalStatements = JVal.jnum 0 → extract_record i = some r →
        r.initial_stmt = CovVal.num 0 ∧ r.total_stmt = CovVal.num 0) ∧
      (i.totalBranches = JVal.jnum 0 → extract_record i = some r →
        r.initial_branch = CovVal.num 0 ∧ r.total_branch = CovVal.num 0) := by
  intro i r
  constructor
  · intro hts h
    rw [extract_record, hts] at h
    revert h
    generalize (if i.totalBranches = JVal.jnum 0 then CovVal.num 0
      else to_coverage_value i.ai_branch) = ibc
    generalize (if i.totalBranches = JVal.jnum 0 then CovVal.num 0
      else to_coverage_value i.cov_branch) = tbc
    intro h
    rw [if_pos rfl, if_pos rfl, build_record, calc_change_zero] at h
    rcases hbc : calc_change tbc ibc with _ | bc <;> rw [hbc] at h
    · exact absurd h (by simp)
    · simp only [Option.some.injEq] at h
      constructor <;> rw [← h] <;> simp [round_if_numeric, round2_zero]
  · intro htb h
    rw [extract_record, htb] at h
    revert h
    generalize (if i.totalStatements = JVal.jnum 0 then CovVal.num 0
      else to_coverage_value i.ai_stmt) = isc
    generalize (if i.totalStatements = JVal.jnum 0 then CovVal.num 0
      else to_coverage_value i.cov_stmt) = tsc
    intro h
    rw [if_pos rfl, if_pos rfl, build_record, calc_change_zero] at h
    rcases hsc : calc_change tsc isc with _ | sc <;> rw [hsc] at h
    · exact absurd h (by simp)
    · simp only [Option.some.injEq] at h
      constructor <;> rw [← h] <;> simp [round_if_numeric, round2_zero]

/-- The C9 witness input: statement fields report `"nan"` but
`totalStatements` is `0`; branch fields are ordinary numbers. -/
def c9_input : FnInput :=
  { ai_stmt := JVal.jstr_nan, ai_branch := JVal.jnum 10,
    cov_stmt := JVal.jstr_nan, cov_branch := JVal.jnum 50,
    totalStatements := JVal.jnum 0, totalBranches := JVal.jnum 2 }

def c9_rec : CovRec :=
  { initial_stmt := CovVal.num 0, total_stmt := CovVal.num 0,
    stmt_change := CovVal.num 0, initial_branch := CovVal.num 10,
    total_branch := CovVal.num 50, branch_change := CovVal.num 40 }

theorem calc_change_50_10 : calc_change (CovVal.num 50) (CovVal.num 10) = some 40 := by
  simp only [calc_change]
  rw [show (50:ℚ) - 10 = 40 by norm_num]
  rw [if_neg (by rw [abs_of_pos (by norm_num : (0:ℚ) < 40)]; norm_num)]

theorem extract_record_c9 : extract_record c9_input = some c9_rec := by
  have h0 : c9_input.totalStatements = JVal.jnum 0 := rfl
  have h2 : c9_input.totalBranches ≠ JVal.jnum 0 := by
    simp only [c9_input, ne_eq, JVal.jnum.injEq]
    norm_num
  rw [extract_record, if_pos h0, if_pos h0, if_neg h2, if_neg h2]
  show build_record (CovVal.num 0) (CovVal.num 0) (CovVal.num 10) (CovVal.num 50) = some c9_rec
  rw [build_record, calc_change_zero, calc_change_50_10]
  show some
    { initial_stmt := round_if_numeric (CovVal.num 0)
      total_stmt := round_if_numeric (CovVal.num 0)
      stmt_change := round_if_numeric (CovVal.num 0)
      initial_branch := round_if_numeric (CovVal.num 10)
      total_branch := round_if_numeric (CovVal.num 50)
      branch_change := round_if_numeric (CovVal.num 40) } = some c9_rec
  simp only [round_if_numeric, round2_zero,
    round2_eq_self_of_mul_100 10 1000 (by norm_num),
    round2_eq_self_of_mul_100 50 5000 (by norm_num),
    round2_eq_self_of_mul_100 40 4000 (by norm_num)]
  rfl

theorem C9_zero_denominator_witness :
    c9_rec.initial_stmt = CovVal.num 0 ∧ c9_rec.total_stmt = CovVal.num 0 :=
  (C9_zero_denominator_forces_zero c9_input c9_rec).1 rfl extract_record_c9

/-- The C2 failing input: `stmtCov` is the string `"nan"` while
`totalStatements` is `5` (nonzero), so the statement-change operands are one
`Missing` and one number. -/
def c2_input : FnInput :=
  { ai_stmt := JVal.jnum 30, ai_branch := JVal.jnum 10,
    cov_stmt := JVal.jstr_nan, cov_branch := JVal.jnum 50,
    totalStatements := JVal.jnum 5, totalBranches := JVal.jnum 2 }

/-- C2 (code bug evidence): on a record whose total statement coverage is
`Missing` and whose initial statement coverage is the number `30`, the
extractor emits no record at all — the `TypeError` from `'NaN' - 30` is caught
by the per-record handler, which skips the function folder — although the
claim (and the spec) require a record with a `Missing` statement change.  The
both-numeric half of the rule does hold: `calc_change 80 60 = 20`. -/
theorem C2_missing_operand_drops_record :
    extract_record c2_input = none ∧
    to_coverage_value c2_input.cov_stmt = CovVal.nan ∧
    to_coverage_value c2_input.ai_stmt = CovVal.num 30 ∧
    calc_change (CovVal.num 80) (CovVal.num 60) = some 20 := by
  refine ⟨?_, rfl, rfl, ?_⟩
  · have h5 : c2_input.totalStatements ≠ JVal.jnum 0 := by
      simp only [c2_input, ne_eq, JVal.jnum.injEq]
      norm_num
    have h2 : c2_input.totalBranches ≠ JVal.jnum 0 := by
      simp only [c2_input, ne_eq, JVal.jnum.injEq]
      norm_num
    rw [extract_record, if_neg h5, if_neg h5, if_neg h2, if_neg h2]
    rfl
  · simp only [calc_change]
    rw [show (80:ℚ) - 60 = 20 by norm_num]
    rw [if_neg (by rw [abs_of_pos (by norm_num : (0:ℚ) < 20)]; norm_num)]

/-- C4: `calculate_averages` is absent exactly on empty input; otherwise each
of the six coverage fields independently is the arithmetic mean of the
non-Missing inputs rounded to 2 decimals (a mean rounding to `0.00` is output
as `0`; over `ℚ` there is no `-0`), and is `Missing` when every input of that
field is `Missing`. -/
theorem C4_aggregate_mean :
    ∀ rs : List CovRec,
      (calculate_averages rs = none ↔ rs = []) ∧
      (∀ a : CovRec, calculate_averages rs = some a → ∀ p ∈ field_projections,
        (numeric_values (rs.map p) = [] → p a = CovVal.nan) ∧
        (numeric_values (rs.map p) ≠ [] →
          p a = CovVal.num (round2 (mean_of (numeric_values (rs.map p)))) ∧
          (round2 (mean_of (numeric_values (rs.map p))) = 0 → p a = CovVal.num 0))) := by
  intro rs
  refine ⟨calculate_averages_eq_none_iff rs, ?_⟩
  intro a ha p hp
  have hfield := calculate_averages_field rs a ha p hp
  constructor
  · intro hemp
    rw [hfield]
    simp only [avg_skip_nan]
    rw [hemp]
    simp [round_if_numeric]
  · intro hne
    have hnum : p a = CovVal.num (round2 (mean_of (numeric_values (rs.map p)))) := by
      rw [hfield]
      simp only [avg_skip_nan]
      rw [if_neg (by simpa using hne)]
      simp [round_if_numeric, mean_of]
    exact ⟨hnum, fun h0 => by rw [hnum, h0]⟩

def c4_rs : List CovRec :=
  [{ initial_stmt := CovVal.num 10, total_stmt := CovVal.nan, stmt_change := CovVal.num 0,
     initial_branch := CovVal.num 0, total_branch := CovVal.num 0,
     branch_change := CovVal.num 0 },
   { initial_stmt := CovVal.num 20, total_stmt := CovVal.nan, stmt_change := CovVal.num 0,
     initial_branch := CovVal.num 0, total_branch := CovVal.num 0,
     branch_change := CovVal.num 0 }]

def c4_avg : CovRec :=
  { initial_stmt := CovVal.num 15, total_stmt := CovVal.nan, stmt_change := CovVal.num 0,
    initial_branch := CovVal.num 0, total_branch := CovVal.num 0,
    branch_change := CovVal.num 0 }

theorem avg_skip_nan_pair (x y : ℚ) :
    avg_skip_nan [CovVal.num x, CovVal.num y] = CovVal.num ((x + y) / 2) := by
  simp only [avg_skip_nan, numeric_values, List.filterMap_cons, cov_to_num,
    List.filterMap_nil]
  norm_num

theorem calculate_averages_c4 : calculate_averages c4_rs = some c4_avg := by
  have hne : ¬c4_rs.isEmpty = true := by simp [c4_rs]
  have m1 : c4_rs.map CovRec.initial_stmt = [CovVal.num 10, CovVal.num 20] := rfl
  have m2 : c4_rs.map CovRec.total_stmt = [CovVal.nan, CovVal.nan] := rfl
  have m3 : c4_rs.map CovRec.stmt_change = [CovVal.num 0, CovVal.num 0] := rfl
  have m4 : c4_rs.map CovRec.initial_branch = [CovVal.num 0, CovVal.num 0] := rfl
  have m5 : c4_rs.map CovRec.total_branch = [CovVal.num 0, CovVal.num 0] := rfl
  have m6 : c4_rs.map CovRec.branch_change = [CovVal.num 0, CovVal.num 0] := rfl
  have mnan : avg_skip_nan [CovVal.nan, CovVal.nan] = CovVal.nan := rfl
  rw [calculate_averages, if_neg hne, m1, m2, m3, m4, m5, m6, mnan,
    avg_skip_nan_pair, avg_skip_nan_pair]
  simp only [round_if_numeric]
  rw [show ((10:ℚ) + 20) / 2 = 15 by norm_num, show ((0:ℚ) + 0) / 2 = 0 by norm_num,
    round2_zero, round2_eq_self_of_mul_100 15 1500 (by norm_num)]
  rfl

theorem C4_aggregate_witness :
    calculate_averages ([] : List CovRec) = none ∧
    c4_avg.total_stmt = CovVal.nan ∧ c4_avg.initial_stmt = CovVal.num 15 := by
  refine ⟨(C4_aggregate_mean []).1.mpr rfl, ?_, ?_⟩
  · exact ((C4_aggregate_mean c4_rs).2 c4_avg calculate_averages_c4 CovRec.total_stmt
      (by simp [field_projections])).1 rfl
  · have hne : numeric_values (c4_rs.map CovRec.initial_stmt) ≠ [] := by
      rw [show numeric_values (c4_rs.map CovRec.initial_stmt) = [10, 20] from rfl]
      simp
    have h := (((C4_aggregate_mean c4_rs).2 c4_avg calculate_averages_c4 CovRec.initial_stmt
      (by simp [field_projections])).2 hne).1
    rw [h, show numeric_values (c4_rs.map CovRec.initial_stmt) = [10, 20] from rfl,
      show mean_of [(10:ℚ), 20] = 15 by
        simp only [mean_of, List.sum_cons, List.sum_nil, List.length_cons, List.length_nil]
        norm_num,
      round2_eq_self_of_mul_100 15 1500 (by norm_num)]

/-- The composite `aggregate([aggregate(A), aggregate(B)])`: aggregate the two group
aggregates. -/
def agg_of_aggs (A B : List CovRec) : Option CovRec :=
  match calculate_averages A, calculate_averages B with
  | some a, some b => calculate_averages [a, b]
  | _, _ => none

theorem mean_of_pair (x y : ℚ) : mean_of [x, y] = (x + y) / 2 := by
  simp only [mean_of, List.sum_cons, List.sum_nil, List.length_cons, List.length_nil]
  norm_num

theorem avg_skip_nan_eq_mean (values : List CovVal) (h : numeric_values values ≠ []) :
    avg_skip_nan values = CovVal.num (mean_of (numeric_values values)) := by
  simp only [avg_skip_nan]
  rw [if_neg (by simpa using h)]
  simp [mean_of]

theorem round2_50_3 : round2 (50/3) = 1667/100 := by
  unfold round2
  rw [show (50:ℚ)/3 * 100 = 5000/3 by ring,
    rhe_eq_high (5000/3) 1666 (by norm_num) (by norm_num)]
  norm_num

def c7_r1 : CovRec :=
  { initial_stmt := CovVal.nan, total_stmt := CovVal.nan, stmt_change := CovVal.nan,
    initial_branch := CovVal.nan, total_branch := CovVal.nan, branch_change := CovVal.nan }

def c7_r2 : CovRec :=
  { initial_stmt := CovVal.num 10, total_stmt := CovVal.num 10, stmt_change := CovVal.num 10,
    initial_branch := CovVal.num 10, total_branch := CovVal.num 10,
    branch_change := CovVal.num 10 }

def c7_r3 : CovRec :=
  { initial_stmt := CovVal.num 20, total_stmt := CovVal.num 20, stmt_change := CovVal.num 20,
    initial_branch := CovVal.num 20, total_branch := CovVal.num 20,
    branch_change := CovVal.num 20 }

def c7_r4 : CovRec :=
  { initial_stmt := CovVal.num 40, total_stmt := CovVal.num 20, stmt_change := CovVal.num 40,
    initial_branch := CovVal.num 40, total_branch := CovVal.num 40,
    branch_change := CovVal.num 40 }

def c7_A : List CovRec := [c7_r1, c7_r2]

def c7_B : List CovRec := [c7_r3, c7_r4]

/-- C7 counterexample: for the disjoint non-empty equal-size record sets
`c7_A` (one all-`Missing` record, one all-`10` record) and `c7_B` (total
statement coverage `20` in both records), the aggregate of the two aggregates
reports total statement coverage `15`, while the aggregate of the union
reports `16.67` — the Missing-skipping mean weights the groups by their
non-Missing counts, so the claimed equality fails. -/
theorem C7_counterexample :
    c7_A.length = c7_B.length ∧ c7_A ≠ [] ∧ c7_B ≠ [] ∧ List.Disjoint c7_A c7_B ∧
    (agg_of_aggs c7_A c7_B).map CovRec.total_stmt ≠
      (calculate_averages (c7_A ++ c7_B)).map CovRec.total_stmt := by
  refine ⟨rfl, by simp [c7_A], by simp [c7_B], ?_, ?_⟩
  · intro x hx hy
    simp only [c7_A, List.mem_cons, List.not_mem_nil, or_false] at hx
    simp only [c7_B, List.mem_cons, List.not_mem_nil, or_false] at hy
    have h2 : x.total_stmt = CovVal.num 20 := by
      rcases hy with rfl | rfl <;> rfl
    have h3 : x.total_stmt = CovVal.nan ∨ x.total_stmt = CovVal.num 10 := by
      rcases hx with rfl | rfl
      · exact Or.inl rfl
      · exact Or.inr rfl
    rcases h3 with h3 | h3 <;> rw [h2] at h3
    · exact absurd h3 (by simp)
    · rw [CovVal.num.injEq] at h3
      norm_num at h3
  · obtain ⟨a, ha⟩ := Option.ne_none_iff_exists'.mp
      (by simp [ne_eq, calculate_averages_eq_none_iff, c7_A] :
        calculate_averages c7_A ≠ none)
    obtain ⟨b, hb⟩ := Option.ne_none_iff_exists'.mp
      (by simp [ne_eq, calculate_averages_eq_none_iff, c7_B] :
        calculate_averages c7_B ≠ none)
    have hat : a.total_stmt = CovVal.num 10 := by
      rw [calculate_averages_field c7_A a ha CovRec.total_stmt (by simp [field_projections]),
        show c7_A.map CovRec.total_stmt = [CovVal.nan, CovVal.num 10] from rfl,
        avg_skip_nan_eq_mean _ (by
          rw [show numeric_values [CovVal.nan, CovVal.num 10] = [10] from rfl]
          exact List.cons_ne_nil _ _),
        show numeric_values [CovVal.nan, CovVal.num 10] = [10] from rfl,
        show mean_of [(10:ℚ)] = 10 by
          simp only [mean_of, List.sum_cons, List.sum_nil, List.length_cons, List.length_nil]
          norm_num]
      simp only [round_if_numeric]
      rw [round2_eq_self_of_mul_100 10 1000 (by norm_num)]
    have hbt : b.total_stmt = CovVal.num 20 := by
      rw [calculate_averages_field c7_B b hb CovRec.total_stmt (by simp [field_projections]),
        show c7_B.map CovRec.total_stmt = [CovVal.num 20, CovVal.num 20] from rfl,
        avg_skip_nan_pair, show ((20:ℚ) + 20) / 2 = 20 by norm_num]
      simp only [round_if_numeric]
      rw [round2_eq_self_of_mul_100 20 2000 (by norm_num)]
    obtain ⟨c, hc⟩ := Option.ne_none_iff_exists'.mp
      (by simp [ne_eq, calculate_averages_eq_none_iff] :
        calculate_averages [a, b] ≠ none)
    obtain ⟨d, hd⟩ := Option.ne_none_iff_exists'.mp
      (by simp [ne_eq, calculate_averages_eq_none_iff, c7_A] :
        calculate_averages (c7_A ++ c7_B) ≠ none)
    have hct : c.total_stmt = CovVal.num 15 := by
      rw [calculate_averages_field [a, b] c hc CovRec.total_stmt (by simp [field_projections]),
        show [a, b].map CovRec.total_stmt = [a.total_stmt, b.total_stmt] from rfl,
        hat, hbt, avg_skip_nan_pair, show ((10:ℚ) + 20) / 2 = 15 by norm_num]
      simp only [round_if_numeric]
      rw [round2_eq_self_of_mul_100 15 1500 (by norm_num)]
    have hdt : d.total_stmt = CovVal.num (1667/100) := by
      rw [calculate_averages_field (c7_A ++ c7_B) d hd CovRec.total_stmt
          (by simp [field_projections]),
        show (c7_A ++ c7_B).map CovRec.total_stmt =
          [CovVal.nan, CovVal.num 10, CovVal.num 20, CovVal.num 20] from rfl,
        avg_skip_nan_eq_mean _ (by
          rw [show numeric_values [CovVal.nan, CovVal.num 10, CovVal.num 20, CovVal.num 20] =
            [10, 20, 20] from rfl]
          exact List.cons_ne_nil _ _),
        show numeric_values [CovVal.nan, CovVal.num 10, CovVal.num 20, CovVal.num 20] =
          [10, 20, 20] from rfl,
        show mean_of [(10:ℚ), 20, 20] = 50/3 by
          simp only [mean_of, List.sum_cons, List.sum_nil, List.length_cons, List.length_nil]
          norm_num]
      simp only [round_if_numeric]
      rw [round2_50_3]
    simp only [agg_of_aggs, ha, hb, hc, hd, Option.map_some', hct, hdt, ne_eq,
      Option.some.injEq, CovVal.num.injEq]
    norm_num

/-- C7 (amended): for disjoint non-empty record groups of equal size, the
aggregate of the two group aggregates agrees with the aggregate of the union
in a coverage field provided no input of that field is `Missing` and each
group's unrounded field mean is already exact at 2 decimals; with `Missing`
inputs (or non-representable group means) the two can differ, as
`C7_counterexample` shows. -/
theorem C7_amended_equal_size_groups :
    ∀ (A B : List CovRec) (p : CovRec → CovVal), p ∈ field_projections →
      A ≠ [] → A.length = B.length →
      (∀ r ∈ A ++ B, ∃ q, p r = CovVal.num q) →
      round2 (mean_of (numeric_values (A.map p))) = mean_of (numeric_values (A.map p)) →
      round2 (mean_of (numeric_values (B.map p))) = mean_of (numeric_values (B.map p)) →
      (agg_of_aggs A B).map p = (calculate_averages (A ++ B)).map p := by
  intro A B p hp hA hlen hnum hrA hrB
  have hB : B ≠ [] := by
    intro h
    subst h
    simp only [List.length_nil] at hlen
    exact hA (List.length_eq_zero.mp hlen)
  have hnumA : ∀ v ∈ A.map p, ∃ q, v = CovVal.num q := by
    intro v hv
    obtain ⟨r, hr, rfl⟩ := List.mem_map.mp hv
    exact hnum r (List.mem_append.mpr (Or.inl hr))
  have hnumB : ∀ v ∈ B.map p, ∃ q, v = CovVal.num q := by
    intro v hv
    obtain ⟨r, hr, rfl⟩ := List.mem_map.mp hv
    exact hnum r (List.mem_append.mpr (Or.inr hr))
  have hdecA := all_num_decompose (A.map p) hnumA
  have hdecB := all_num_decompose (B.map p) hnumB
  have hlA : (numeric_values (A.map p)).length = A.length := by
    have := congrArg List.length hdecA
    simp only [List.length_map] at this
    exact this.symm
  have hlB : (numeric_values (B.map p)).length = B.length := by
    have := congrArg List.length hdecB
    simp only [List.length_map] at this
    exact this.symm
  have hneA : numeric_values (A.map p) ≠ [] := by
    intro h
    rw [h] at hlA
    exact hA (List.length_eq_zero.mp hlA.symm)
  have hneB : numeric_values (B.map p) ≠ [] := by
    intro h
    rw [h] at hlB
    rw [← hlen] at hlB
    exact hA (List.length_eq_zero.mp hlB.symm)
  obtain ⟨a, ha⟩ := Option.ne_none_iff_exists'.mp
    (by simp [ne_eq, calculate_averages_eq_none_iff, hA] : calculate_averages A ≠ none)
  obtain ⟨b, hb⟩ := Option.ne_none_iff_exists'.mp
    (by simp [ne_eq, calculate_averages_eq_none_iff, hB] : calculate_averages B ≠ none)
  have pa : p a = CovVal.num (mean_of (numeric_values (A.map p))) := by
    rw [calculate_averages_field A a ha p hp, avg_skip_nan_eq_mean _ hneA]
    simp only [round_if_numeric]
    rw [hrA]
  have pb : p b = CovVal.num (mean_of (numeric_values (B.map p))) := by
    rw [calculate_averages_field B b hb p hp, avg_skip_nan_eq_mean _ hneB]
    simp only [round_if_numeric]
    rw [hrB]
  obtain ⟨c, hc⟩ := Option.ne_none_iff_exists'.mp
    (by simp [ne_eq, calculate_averages_eq_none_iff] : calculate_averages [a, b] ≠ none)
  obtain ⟨d, hd⟩ := Option.ne_none_iff_exists'.mp
    (by simp [ne_eq, calculate_averages_eq_none_iff, hA] :
      calculate_averages (A ++ B) ≠ none)
  have pc : p c = CovVal.num (round2 ((mean_of (numeric_values (A.map p)) +
      mean_of (numeric_values (B.map p))) / 2)) := by
    rw [calculate_averages_field [a, b] c hc p hp,
      show [a, b].map p = [p a, p b] from rfl, pa, pb, avg_skip_nan_pair]
    simp only [round_if_numeric]
  have hnv : numeric_values ((A ++ B).map p) =
      numeric_values (A.map p) ++ numeric_values (B.map p) := by
    rw [List.map_append]
    simp only [numeric_values, List.filterMap_append]
  have hneAB : numeric_values ((A ++ B).map p) ≠ [] := by
    rw [hnv]
    intro h
    exact hneA (List.append_eq_nil.mp h).1
  have pd : p d = CovVal.num (round2 (mean_of (numeric_values (A.map p) ++
      numeric_values (B.map p)))) := by
    rw [calculate_averages_field (A ++ B) d hd p hp,
      avg_skip_nan_eq_mean _ hneAB, hnv]
    simp only [round_if_numeric]
  have hme : mean_of (numeric_values (A.map p) ++ numeric_values (B.map p)) =
      (mean_of (numeric_values (A.map p)) + mean_of (numeric_values (B.map p))) / 2 := by
    simp only [mean_of]
    exact mean_append_eq _ _ (by rw [hlA, hlB, hlen])
  simp only [agg_of_aggs, ha, hb]
  rw [hc, hd, Option.map_some', Option.map_some', pc, pd, hme]

def c7w_rec (x : ℚ) : CovRec :=
  { initial_stmt := CovVal.num x, total_stmt := CovVal.num x, stmt_change := CovVal.num x,
    initial_branch := CovVal.num x, total_branch := CovVal.num x,
    branch_change := CovVal.num x }

def c7w_A : List CovRec := [c7w_rec 10, c7w_rec 20]

def c7w_B : List CovRec := [c7w_rec 30, c7w_rec 40]

theorem C7_amended_witness :
    (agg_of_aggs c7w_A c7w_B).map CovRec.total_stmt =
      (calculate_averages (c7w_A ++ c7w_B)).map CovRec.total_stmt := by
  apply C7_amended_equal_size_groups c7w_A c7w_B CovRec.total_stmt
    (by simp [field_projections]) (by simp [c7w_A]) rfl
  · intro r hr
    simp only [c7w_A, c7w_B, List.mem_append, List.mem_cons, List.not_mem_nil,
      or_false] at hr
    rcases hr with (rfl | rfl) | (rfl | rfl) <;> exact ⟨_, rfl⟩
  · rw [show numeric_values (c7w_A.map CovRec.total_stmt) = [10, 20] from rfl,
      mean_of_pair, show ((10:ℚ) + 20) / 2 = 15 by norm_num,
      round2_eq_self_of_mul_100 15 1500 (by norm_num)]
  · rw [show numeric_values (c7w_B.map CovRec.total_stmt) = [30, 40] from rfl,
      mean_of_pair, show ((30:ℚ) + 40) / 2 = 35 by norm_num,
      round2_eq_self_of_mul_100 35 3500 (by norm_num)]

theorem avg_skip_nan_single (x : ℚ) : avg_skip_nan [CovVal.num x] = CovVal.num x := by
  simp only [avg_skip_nan, numeric_values, List.filterMap_cons, cov_to_num,
    List.filterMap_nil]
  norm_num

theorem py_truthy_num_zero : py_truthy (some (CovVal.num 0)) = false := by
  simp [py_truthy]

theorem py_truthy_num_ne (q : ℚ) (h : q ≠ 0) : py_truthy (some (CovVal.num q)) = true := by
  simp [py_truthy, h]

/-- The C3 baseline record: initial statement coverage `0` (a perfectly valid
non-Missing value), total statement coverage `80`. -/
def c3_rec : CovRec :=
  { initial_stmt := CovVal.num 0, total_stmt := CovVal.num 80,
    stmt_change := CovVal.num 80, initial_branch := CovVal.num 50,
    total_branch := CovVal.num 60, branch_change := CovVal.num 10 }

theorem calculate_averages_c3 : calculate_averages [c3_rec] = some c3_rec := by
  have hne : ¬([c3_rec] : List CovRec).isEmpty = true := by simp
  rw [calculate_averages, if_neg hne]
  simp only [show [c3_rec].map CovRec.initial_stmt = [CovVal.num 0] from rfl,
    show [c3_rec].map CovRec.total_stmt = [CovVal.num 80] from rfl,
    show [c3_rec].map CovRec.stmt_change = [CovVal.num 80] from rfl,
    show [c3_rec].map CovRec.initial_branch = [CovVal.num 50] from rfl,
    show [c3_rec].map CovRec.total_branch = [CovVal.num 60] from rfl,
    show [c3_rec].map CovRec.branch_change = [CovVal.num 10] from rfl,
    avg_skip_nan_single, round_if_numeric]
  rw [round2_zero, round2_eq_self_of_mul_100 80 8000 (by norm_num),
    round2_eq_self_of_mul_100 50 5000 (by norm_num),
    round2_eq_self_of_mul_100 60 6000 (by norm_num),
    round2_eq_self_of_mul_100 10 1000 (by norm_num)]
  rfl

/-- The baseline's per-file cross-project average in the C3 counterexample
pipeline (`load_project_file_averages` then `average_across_projects`). -/
def c3_llm : Option CovRec :=
  match calculate_averages [c3_rec] with
  | some a => average_across_projects [a]
  | none => none

theorem c3_llm_eq : c3_llm = some c3_rec := by
  simp only [c3_llm, calculate_averages_c3]
  rw [average_across_projects, if_neg (by simp)]
  exact calculate_averages_c3

/-- C3 counterexample: a baseline whose cross-project initial statement
average is the number `0` and whose total average is `80` yields a `Missing`
withoutIteration cell — Python's truthiness test on line 90 of `ablation.py`
treats the `0` average as falsy — although the claim requires
`-(80 - 0) = -80`. -/
theorem C3_counterexample :
    c3_llm.map CovRec.initial_stmt = some (CovVal.num 0) ∧
    c3_llm.map CovRec.total_stmt = some (CovVal.num 80) ∧
    wo_iter_cell (c3_llm.map CovRec.total_stmt) (c3_llm.map CovRec.initial_stmt) =
      some none ∧
    wo_iter_cell (c3_llm.map CovRec.total_stmt) (c3_llm.map CovRec.initial_stmt) ≠
      some (some (-(80 - 0) : ℚ)) := by
  have h1 : c3_llm.map CovRec.initial_stmt = some (CovVal.num 0) := by
    rw [c3_llm_eq]; rfl
  have h2 : c3_llm.map CovRec.total_stmt = some (CovVal.num 80) := by
    rw [c3_llm_eq]; rfl
  have hcond : (py_truthy (some (CovVal.num 80)) && py_truthy (some (CovVal.num 0))) =
      false := by
    rw [py_truthy_num_zero, Bool.and_false]
  have h3 : wo_iter_cell (some (CovVal.num 80)) (some (CovVal.num 0)) = some none := by
    simp only [wo_iter_cell, hcond, Bool.false_eq_true, if_false]
  refine ⟨h1, h2, ?_, ?_⟩
  · rw [h1, h2, h3]
  · rw [h1, h2, h3]
    simp

/-- C3 (amended): the withoutIteration cell equals
`-(full.total - full.initial)` (rounded to 2 decimals) exactly when both
baseline averages are non-Missing and nonzero; it is `Missing` (an empty
cell) whenever either average is Missing or equal to `0` — the Python
truthiness guard `if (llm_stmt and llm_init_stmt)` treats a `0` average like
an absent one, so a baseline with initial average `0` yields `Missing`, not
`-(full.total - 0)`. -/
theorem C3_amended_wo_iter :
    ∀ total initial : Option CovVal,
      (∀ t i : ℚ, total = some (CovVal.num t) → initial = some (CovVal.num i) →
        t ≠ 0 → i ≠ 0 →
        wo_iter_cell total initial = some (some (round2 (-(t - i))))) ∧
      ((py_truthy total = false ∨ py_truthy initial = false) →
        wo_iter_cell total initial = some none) := by
  intro total initial
  constructor
  · intro t i ht hi htz hiz
    subst ht
    subst hi
    have hcond : (py_truthy (some (CovVal.num t)) && py_truthy (some (CovVal.num i))) =
        true := by
      rw [py_truthy_num_ne t htz, py_truthy_num_ne i hiz, Bool.and_self]
    simp only [wo_iter_cell, hcond, if_true]
  · intro h
    have hcond : (py_truthy total && py_truthy initial) = false := by
      rcases h with h | h
      · rw [h, Bool.false_and]
      · rw [h, Bool.and_false]
    simp only [wo_iter_cell, hcond, Bool.false_eq_true, if_false]

theorem C3_amended_witness :
    wo_iter_cell (some (CovVal.num 80)) (some (CovVal.num 60)) = some (some (-20)) := by
  have h := (C3_amended_wo_iter (some (CovVal.num 80)) (some (CovVal.num 60))).1 80 60
    rfl rfl (by norm_num) (by norm_num)
  rw [h, show -((80:ℚ) - 60) = -20 by norm_num,
    show round2 (-20 : ℚ) = -20 from round2_eq_self_of_mul_100 (-20) (-2000) (by norm_num)]

theorem mem_ci_sorted_union (a b : List Str) (k : Str) :
    k ∈ ci_sorted_union a b ↔ (k ∈ a ∨ k ∈ b) := by
  unfold ci_sorted_union
  rw [(List.perm_insertionSort _ _).mem_iff, List.mem_dedup, List.mem_append]

theorem mem_ci_pair_sorted_union (a b : List (Str × Str)) (k : Str × Str) :
    k ∈ ci_pair_sorted_union a b ↔ (k ∈ a ∨ k ∈ b) := by
  unfold ci_pair_sorted_union
  rw [(List.perm_insertionSort _ _).mem_iff, List.mem_dedup, List.mem_append]

def c6_cw : List Str := [['a']]

def c6_llm : List Str := [['B']]

/-- C6 counterexample: with function `"a"` in one variant and `"B"` in the
other, the function-level comparator's key list (line 92 of
`generate_coverage_comparison.py`) is `["B", "a"]` — plain code-point order —
which is not sorted case-insensitively; a case-insensitive sort would have to
put `"a"` before `"B"`. -/
theorem C6_counterexample :
    sorted_union c6_cw c6_llm = [['B'], ['a']] ∧
    ¬ List.Sorted ci_le (sorted_union c6_cw c6_llm) ∧
    List.Sorted ci_le [['a'], ['B']] := by
  have he : sorted_union c6_cw c6_llm = [['B'], ['a']] := by decide
  refine ⟨he, ?_, ?_⟩
  · rw [he]
    intro h
    have hrel := (List.sorted_cons.mp h).1 ['a'] (by simp)
    exact absurd hrel (by decide)
  · refine List.sorted_cons.mpr ⟨?_, List.sorted_singleton _⟩
    intro x hx
    rw [List.mem_singleton.mp hx]
    decide

/-- C6 (amended): every pairwise comparison report iterates over exactly the
union of the keys present in either variant; the file-level
`(project, file)` keys and the project-level keys are sorted
case-insensitively, but the function-level report sorts its function names
case-sensitively (by code point), not case-insensitively. -/
theorem C6_amended_union_and_sort_order :
    (∀ (cw llm : List Str) (k : Str), k ∈ sorted_union cw llm ↔ (k ∈ cw ∨ k ∈ llm)) ∧
    (∀ cw llm : List Str, List.Sorted str_le (sorted_union cw llm)) ∧
    (∀ (a b : List (Str × Str)) (k : Str × Str),
      k ∈ ci_pair_sorted_union a b ↔ (k ∈ a ∨ k ∈ b)) ∧
    (∀ a b : List (Str × Str), List.Sorted ci_pair_le (ci_pair_sorted_union a b)) ∧
    (∀ (a b : List Str) (k : Str), k ∈ ci_sorted_union a b ↔ (k ∈ a ∨ k ∈ b)) ∧
    (∀ a b : List Str, List.Sorted ci_le (ci_sorted_union a b)) := by
  refine ⟨mem_sorted_union, ?_, mem_ci_pair_sorted_union, ?_, mem_ci_sorted_union, ?_⟩
  · intro cw llm
    exact List.sorted_insertionSort _ _
  · intro a b
    exact List.sorted_insertionSort _ _
  · intro a b
    exact List.sorted_insertionSort _ _

/-- C10: the function-level comparators key each variant's mapping by the
stripped function name alone; across the row stream (files in sorted filename
order, rows in file order) a later occurrence of the same name overwrites the
earlier one, so a name's stored coverage values are those of its last kept
occurrence; and — the comparison rows being one per key of the deduplicated
sorted union — every function name yields at most one comparison row. -/
theorem C10_last_occurrence_wins :
    (∀ (files : List (Str × List CsvRow)) (k : Str),
      dict_lookup (read_all_coverage_in_dir files) k =
        ((dir_stream files).reverse.find? (row_matches k)).map
          (fun r => (r.stmt, r.branch))) ∧
    (∀ cw llm : List Str, (sorted_union cw llm).Nodup) := by
  constructor
  · intro files k
    rw [read_all_coverage_in_dir, foldl_read_row]
    cases (dir_stream files).reverse.find? (row_matches k) with
    | none => rfl
    | some r => rfl
  · exact sorted_union_nodup

theorem fmt_fixed2_ne_NaN (q : ℚ) : String.mk (fmt_fixed2 q) ≠ "NaN" := by
  intro h
  have hd : fmt_fixed2 q = ['N', 'a', 'N'] := by simpa using congrArg String.data h
  have hN : 'N' ∈ fmt_fixed2 q := by rw [hd]; simp
  exact absurd (fmt_fixed2_mem q 'N' hN) (by decide)

theorem fmt_ne_NaN (v : Option ℚ) : String.mk (fmt v) ≠ "NaN" := by
  intro h
  have hd : fmt v = ['N', 'a', 'N'] := by simpa using congrArg String.data h
  have hN : 'N' ∈ fmt v := by rw [hd]; simp
  exact absurd (fmt_mem v 'N' hN) (by decide)

theorem avg_total_stmt_num (funcs : List CovRec) (a : CovRec)
    (hca : calculate_averages funcs = some a)
    (hfuncs : ∀ r ∈ funcs, ∃ i : FnInput, extract_record i = some r) :
    ∃ q, a.total_stmt = CovVal.num (round2 q) := by
  have hfne : funcs ≠ [] := by
    intro h
    rw [(calculate_averages_eq_none_iff funcs).mpr h] at hca
    exact absurd hca (by simp)
  have hnum : ∀ v ∈ funcs.map CovRec.total_stmt, ∃ q, v = CovVal.num q := by
    intro v hv
    obtain ⟨r, hr, rfl⟩ := List.mem_map.mp hv
    obtain ⟨i, hi⟩ := hfuncs r hr
    exact extract_record_fields_num i r hi CovRec.total_stmt (by simp [field_projections])
  obtain ⟨q, hq⟩ := avg_skip_nan_num (funcs.map CovRec.total_stmt) hnum
    (by intro h; exact hfne (List.map_eq_nil.mp h))
  refine ⟨q, ?_⟩
  rw [calculate_averages_field funcs a hca CovRec.total_stmt (by simp [field_projections]),
    hq]
  rfl

theorem avg_total_branch_num (funcs : List CovRec) (a : CovRec)
    (hca : calculate_averages funcs = some a)
    (hfuncs : ∀ r ∈ funcs, ∃ i : FnInput, extract_record i = some r) :
    ∃ q, a.total_branch = CovVal.num (round2 q) := by
  have hfne : funcs ≠ [] := by
    intro h
    rw [(calculate_averages_eq_none_iff funcs).mpr h] at hca
    exact absurd hca (by simp)
  have hnum : ∀ v ∈ funcs.map CovRec.total_branch, ∃ q, v = CovVal.num q := by
    intro v hv
    obtain ⟨r, hr, rfl⟩ := List.mem_map.mp hv
    obtain ⟨i, hi⟩ := hfuncs r hr
    exact extract_record_fields_num i r hi CovRec.total_branch (by simp [field_projections])
  obtain ⟨q, hq⟩ := avg_skip_nan_num (funcs.map CovRec.total_branch) hnum
    (by intro h; exact hfne (List.map_eq_nil.mp h))
  refine ⟨q, ?_⟩
  rw [calculate_averages_field funcs a hca CovRec.total_branch (by simp [field_projections]),
    hq]
  rfl

/-- C1: a `Missing` value renders as the empty cell and the string sentinel
`"NaN"` never appears in an emitted comparison cell, at all three levels: the
function-level `fmt` maps `None` to `""` and renders only sign, digits and a
dot; the file-level and project-level `fmt_total_stmt` / `fmt_total_branch`
map an absent average row to `""` and — because every record surviving
extraction has numeric fields, so the averages they render are numeric —
never return their `'NaN'` pass-through branch on pipeline data. -/
theorem C1_comparator_output_never_NaN :
    (∀ v : Option ℚ, String.mk (fmt v) ≠ "NaN") ∧
    String.mk (fmt none) = "" ∧
    (∀ funcs : List CovRec,
      (∀ r ∈ funcs, ∃ i : FnInput, extract_record i = some r) →
      String.mk (fmt_total_stmt (calculate_averages funcs)) ≠ "NaN" ∧
      String.mk (fmt_total_branch (calculate_averages funcs)) ≠ "NaN") ∧
    String.mk (fmt_total_stmt none) = "" ∧
    String.mk (fmt_total_branch none) = "" := by
  refine ⟨fmt_ne_NaN, rfl, ?_, rfl, rfl⟩
  intro funcs hfuncs
  rcases hca : calculate_averages funcs with _ | a
  · constructor <;> exact (by decide : String.mk [] ≠ "NaN")
  · constructor
    · obtain ⟨q, hq⟩ := avg_total_stmt_num funcs a hca hfuncs
      have : fmt_total_stmt (some a) = fmt_fixed2 (round2 q) := by
        simp only [fmt_total_stmt, hq]
      rw [this]
      exact fmt_fixed2_ne_NaN (round2 q)
    · obtain ⟨q, hq⟩ := avg_total_branch_num funcs a hca hfuncs
      have : fmt_total_branch (some a) = fmt_fixed2 (round2 q) := by
        simp only [fmt_total_branch, hq]
      rw [this]
      exact fmt_fixed2_ne_NaN (round2 q)

theorem C1_comparator_witness :
    String.mk (fmt_total_stmt (calculate_averages [c9_rec])) ≠ "NaN" := by
  have hf : ∀ r ∈ ([c9_rec] : List CovRec), ∃ i : FnInput, extract_record i = some r := by
    intro r hr
    rw [List.mem_singleton.mp hr]
    exact ⟨c9_input, extract_record_c9⟩
  exact (C1_comparator_output_never_NaN.2.2.1 [c9_rec] hf).1
